import Mathlib

/-!
# Verification of the jsonrpcForCpp JSON-RPC 2.0 stack

Shallow embedding of the library's protocol engine, value codec, method
registry and server-session request processing, translated from the C++
sources (`include/jsonrpc/impl/types.ipp`, `impl/server.ipp`,
`impl/server_session.ipp`, `impl/method_registry.ipp`,
`detail/type_converter.hpp`, `detail/method_wrapper.hpp`).

JSON text parsing/printing is done by the third-party `boost::json` library;
we model library operations at the level of already-parsed JSON values, so
`boost::json::parse ∘ boost::json::serialize` is the identity on values.
-/

namespace Jsonrpc

/-- A JSON value as `boost::json::value` stores it.  The three number kinds
(`int64`, `uint64`, `double`) are distinct, exactly as in boost: the parser
produces `int64` for integer literals fitting in `int64_t`, `uint64` for
larger positive integer literals, and `double` otherwise.  The library code
only ever inspects a double's *kind*, so we carry its source text opaquely. -/
inductive Json where
  | jnull
  | jbool (b : Bool)
  | jint (n : Int)
  | juint (n : Nat)
  | jdouble (lit : String)
  | jstr (s : String)
  | jarr (elems : List Json)
  | jobj (members : List (String × Json))
deriving Inhabited

namespace Json

/-- Mirrors `value::is_object()` -/
def isObject : Json → Bool
  | jobj _ => true
  | _ => false

/-- Mirrors `value::is_array()` -/
def isArray : Json → Bool
  | jarr _ => true
  | _ => false

/-- Mirrors `value::is_null()` -/
def isNull : Json → Bool
  | jnull => true
  | _ => false

/-- Mirrors `value::is_string()` -/
def isString : Json → Bool
  | jstr _ => true
  | _ => false

/-- Mirrors `value::is_bool()` -/
def isBool : Json → Bool
  | jbool _ => true
  | _ => false

/-- Mirrors `value::is_int64()` -/
def isInt64 : Json → Bool
  | jint _ => true
  | _ => false

/-- Mirrors `value::is_uint64()` -/
def isUint64 : Json → Bool
  | juint _ => true
  | _ => false

/-- Mirrors `value::is_double()` -/
def isDouble : Json → Bool
  | jdouble _ => true
  | _ => false

/-- Mirrors `value::is_number()`: int64, uint64 or double kind. -/
def isNumber (j : Json) : Bool :=
  j.isInt64 || j.isUint64 || j.isDouble

/-- Key lookup in an object (`object::contains` / `object::at`).  Returns
`none` on non-objects and missing keys. -/
def find? : Json → String → Option Json
  | jobj members, key => lookupKey members key
  | _, _ => none
where
  lookupKey : List (String × Json) → String → Option Json
    | [], _ => none
    | (k, v) :: rest, key => if k == key then some v else lookupKey rest key

/-- Constructor-level evaluation of the kind testers, for rewriting. -/
theorem isObject_jobj (ms : List (String × Json)) : (jobj ms).isObject = true := rfl

end Json

/-- Mirrors `static_cast<int>` applied to an `int64_t` value: two's-complement
truncation to 32 bits. -/
def toInt32 (n : Int) : Int := (n + 2 ^ 31) % 2 ^ 32 - 2 ^ 31

/-- Wire codes of `enum class ErrorCode` (`errors.hpp`). -/
def parseErrorCode : Int := -32700

def invalidRequestCode : Int := -32600

def methodNotFoundCode : Int := -32601

def invalidParamsCode : Int := -32602

def internalErrorCode : Int := -32603

/-- Mirrors `jsonrpc::Error`: integer code, message, optional JSON data
(`data = null` means absent, cf. `Error::has_data`). -/
structure Error where
  code : Int
  message : String
  data : Json := Json.jnull
deriving Inhabited

/-- Mirrors `Error::to_json`: `code` is emitted via `static_cast<int>(code_)`, which
is the identity because `code_` is already a C++ `int`; `data` is omitted
when null. -/
def Error.to_json (e : Error) : Json :=
  Json.jobj ([("code", Json.jint e.code), ("message", Json.jstr e.message)] ++
    (if e.data.isNull then [] else [("data", e.data)]))

/-- The `jsonrpc` version-field check shared by `Request::from_json`,
`Response::from_json` and `Protocol::validate_version`: the field must be
present, a string, and equal to "2.0". -/
def version_ok (jv : Json) : Bool :=
  match jv.find? "jsonrpc" with
  | some (Json.jstr s) => s == "2.0"
  | _ => false

/-- Mirrors `jsonrpc::Request` (`types.ipp`): immutable; `has_id = false` marks a
notification, in which case `id_` is the null value. -/
structure Request where
  method : String
  params : Json
  id : Json
  has_id : Bool
deriving Inhabited

/-- Mirrors reading a `boost::json::string` into a `std::string` through
`c_str()` (`types.ipp` lines 66 and 198, `type_converter.hpp` line 164):
the copy stops at the first embedded NUL character. -/
def c_str_trunc (s : String) : String :=
  String.mk (s.data.takeWhile (fun c => c != Char.ofNat 0))

/-- True when a string survives a `c_str()` read intact (no embedded NUL). -/
def nul_free (s : String) : Bool :=
  s.data.all (fun c => c != Char.ofNat 0)

/-- Taking while a predicate that holds everywhere keeps the whole list. -/
theorem takeWhile_of_all {α : Type _} (p : α → Bool) :
    ∀ l : List α, l.all p = true → l.takeWhile p = l
  | [], _ => rfl
  | a :: l, h => by
    simp only [List.all_cons, Bool.and_eq_true] at h
    simp [List.takeWhile_cons, h.1, takeWhile_of_all p l h.2]

/-- A NUL-free string is unchanged by the `c_str()` read. -/
theorem c_str_trunc_eq_self {s : String} (h : nul_free s = true) :
    c_str_trunc s = s := by
  cases s with
  | mk data =>
    simp only [c_str_trunc, nul_free] at h ⊢
    rw [takeWhile_of_all _ data h]

/-- Mirrors `Request::from_json` (`types.ipp` lines 49-90), line by line:
object check, `jsonrpc` must be the string "2.0", `method` must be a string
(read via `as_string().c_str()`, so it truncates at an embedded NUL),
`params` (optional) must be array/object/null, `id` (optional) must be
string/**number**/null (`is_number()`, so doubles pass).  Absent `id` means
notification. -/
def Request.from_json (jv : Json) : Except Error Request :=
  if ! jv.isObject then
    .error ⟨invalidRequestCode, "请求必须是 JSON 对象", Json.jnull⟩
  else if ! version_ok jv then
    .error ⟨invalidRequestCode, "缺少或无效的 jsonrpc 版本字段", Json.jnull⟩
  else
    match jv.find? "method" with
    | some (Json.jstr m) =>
      let paramsOpt := jv.find? "params"
      let params := match paramsOpt with
                    | some p => p
                    | none => Json.jnull
      if paramsOpt.isSome && ! (params.isArray || params.isObject || params.isNull) then
        .error ⟨invalidRequestCode, "params 必须是 array 或 object", Json.jnull⟩
      else
        match jv.find? "id" with
        | some idVal =>
          if ! (idVal.isString || idVal.isNumber || idVal.isNull) then
            .error ⟨invalidRequestCode, "id 必须是 string、number 或 null", Json.jnull⟩
          else
            .ok ⟨c_str_trunc m, params, idVal, true⟩
        | none =>
          .ok ⟨c_str_trunc m, params, Json.jnull, false⟩
    | _ => .error ⟨invalidRequestCode, "缺少或无效的 method 字段", Json.jnull⟩

/-- Mirrors `Request::to_json` (`types.ipp` lines 92-106): `params` omitted when
null, `id` omitted for notifications. -/
def Request.to_json (r : Request) : Json :=
  Json.jobj ([("jsonrpc", Json.jstr "2.0"), ("method", Json.jstr r.method)] ++
    (if r.params.isNull then [] else [("params", r.params)]) ++
    (if r.has_id then [("id", r.id)] else []))

/-- Mirrors `jsonrpc::Response`: tagged success/error variant with id. -/
structure Response where
  is_error : Bool
  result : Json
  error : Error
  id : Json
deriving Inhabited

/-- The success constructor `Response(result, id)`; the stored error is the
placeholder `Error(InternalError, "")` from `types.ipp` line 115. -/
def Response.mkResult (result id : Json) : Response :=
  ⟨false, result, ⟨internalErrorCode, "", Json.jnull⟩, id⟩

/-- The error constructor `Response(error, id)`; `result_` is set to null. -/
def Response.mkError (e : Error) (id : Json) : Response :=
  ⟨true, Json.jnull, e, id⟩

/-- Mirrors `Response::from_json` (`types.ipp` lines 148-207): version check, `id`
required, exactly one of `result`/`error`; `error` must be an object with an
int64 `code` (read through `static_cast<int>`) and string `message` (read via
`as_string().c_str()`, truncating at an embedded NUL), optional `data`.
When `data` is present the source first builds `Error(code,
std::move(message))` and then rebuilds it from the now moved-from `message`
(lines 200-202); a moved-from `std::string` is empty on the mainstream
standard libraries, so the parsed message is the empty string in that
case. -/
def Response.from_json (jv : Json) : Except Error Response :=
  if ! jv.isObject then
    .error ⟨invalidRequestCode, "响应必须是 JSON 对象", Json.jnull⟩
  else if ! version_ok jv then
    .error ⟨invalidRequestCode, "缺少或无效的 jsonrpc 版本字段", Json.jnull⟩
  else
    match jv.find? "id" with
    | none => .error ⟨invalidRequestCode, "缺少 id 字段", Json.jnull⟩
    | some idVal =>
      match jv.find? "result", jv.find? "error" with
      | some _, some _ =>
        .error ⟨invalidRequestCode, "响应不能同时包含 result 和 error", Json.jnull⟩
      | none, none =>
        .error ⟨invalidRequestCode, "响应必须包含 result 或 error", Json.jnull⟩
      | some res, none =>
        .ok (Response.mkResult res idVal)
      | none, some errVal =>
        if ! errVal.isObject then
          .error ⟨invalidRequestCode, "error 必须是对象", Json.jnull⟩
        else
          match errVal.find? "code" with
          | some (Json.jint c) =>
            match errVal.find? "message" with
            | some (Json.jstr msg) =>
              let code := toInt32 c
              match errVal.find? "data" with
              | some d => .ok (Response.mkError ⟨code, "", d⟩ idVal)
              | none => .ok (Response.mkError ⟨code, c_str_trunc msg, Json.jnull⟩ idVal)
            | _ => .error ⟨invalidRequestCode, "error.message 缺失或无效", Json.jnull⟩
          | _ => .error ⟨invalidRequestCode, "error.code 缺失或无效", Json.jnull⟩

/-- Mirrors `Response::to_json` (`types.ipp` lines 209-222). -/
def Response.to_json (r : Response) : Json :=
  Json.jobj ([("jsonrpc", Json.jstr "2.0")] ++
    (if r.is_error then [("error", r.error.to_json)] else [("result", r.result)]) ++
    [("id", r.id)])

namespace Protocol

/-- Mirrors `Protocol::is_batch_request`: true iff the value is a JSON array. -/
def is_batch_request (jv : Json) : Bool := jv.isArray

/-- Mirrors `Protocol::parse_request` (`server.ipp` lines 339-380) after the
third-party `boost::json::parse` step: an array is a batch (empty batches
are `InvalidRequest`), anything else is parsed as a single request; element
errors from `Request::from_json` propagate unchanged, aborting the whole
batch at the first invalid element. -/
def parse_request_value (jv : Json) : Except Error (List Request) :=
  match jv with
  | Json.jarr elems =>
    if elems.isEmpty then
      .error ⟨invalidRequestCode, "批量请求不能为空", Json.jnull⟩
    else
      elems.mapM Request.from_json
  | _ => (Request.from_json jv).map (fun r => [r])

/-- Mirrors `Protocol::serialize_request` at the JSON-value level. -/
def serialize_request_value (r : Request) : Json := r.to_json

/-- Mirrors `Protocol::serialize_response` at the JSON-value level. -/
def serialize_response_value (r : Response) : Json := r.to_json

/-- Mirrors `Protocol::serialize_batch_response` at the JSON-value level. -/
def serialize_batch_response_value (rs : List Response) : Json :=
  Json.jarr (rs.map Response.to_json)

/-- Mirrors `Protocol::parse_response` (`server.ipp` lines 426-447) after the
`boost::json::parse` step: the top value must be an object, then
`Response::from_json`. -/
def parse_response_value (jv : Json) : Except Error Response :=
  if ! jv.isObject then
    .error ⟨invalidRequestCode, "响应必须是 JSON 对象", Json.jnull⟩
  else
    Response.from_json jv

end Protocol

/-! ## Value codec (`detail/type_converter.hpp`) -/

/-- Mirrors `json_converter<int>::from_json`: requires int64 kind, then
`static_cast<int>(jv.as_int64())` — no range check, out-of-range values are
truncated to 32 bits. -/
def json_converter_int_from_json : Json → Except Error Int
  | Json.jint n => .ok (toInt32 n)
  | _ => .error ⟨invalidParamsCode, "期望 int 类型", Json.jnull⟩

/-- Mirrors `json_converter<int64_t>::from_json`: requires int64 kind. -/
def json_converter_int64_from_json : Json → Except Error Int
  | Json.jint n => .ok n
  | _ => .error ⟨invalidParamsCode, "期望 int64 类型", Json.jnull⟩

/-- Mirrors `json_converter<uint64_t>::from_json`: requires uint64 kind. -/
def json_converter_uint64_from_json : Json → Except Error Nat
  | Json.juint n => .ok n
  | _ => .error ⟨invalidParamsCode, "期望 uint64 类型", Json.jnull⟩

/-- Mirrors `json_converter<bool>::from_json`: requires bool kind. -/
def json_converter_bool_from_json : Json → Except Error Bool
  | Json.jbool b => .ok b
  | _ => .error ⟨invalidParamsCode, "期望 bool 类型", Json.jnull⟩

/-- Mirrors `json_converter<std::string>::from_json`: requires string kind;
the value is read through `c_str()` (`type_converter.hpp` line 164), so it
truncates at an embedded NUL. -/
def json_converter_string_from_json : Json → Except Error String
  | Json.jstr s => .ok (c_str_trunc s)
  | _ => .error ⟨invalidParamsCode, "期望 string 类型", Json.jnull⟩

/-- A declared parameter type of a registered procedure (the scalar
instantiations of `json_converter` used through `extract_args`). -/
inductive PType where
  | pint
  | pint64
  | puint64
  | pbool
  | pstring
deriving DecidableEq, Inhabited

/-- A decoded C++ argument value. -/
inductive CppVal where
  | vint (n : Int)
  | vint64 (n : Int)
  | vuint64 (n : Nat)
  | vbool (b : Bool)
  | vstring (s : String)
deriving DecidableEq, Inhabited

/-- Dispatch to `json_converter<T>::from_json` for the declared type. -/
def decode_param : PType → Json → Except Error CppVal
  | PType.pint, jv => (json_converter_int_from_json jv).map CppVal.vint
  | PType.pint64, jv => (json_converter_int64_from_json jv).map CppVal.vint64
  | PType.puint64, jv => (json_converter_uint64_from_json jv).map CppVal.vuint64
  | PType.pbool, jv => (json_converter_bool_from_json jv).map CppVal.vbool
  | PType.pstring, jv => (json_converter_string_from_json jv).map CppVal.vstring

/-- Element-wise conversion of `extract_args_impl`'s
`make_tuple(from_json(arr[Is])...)`; called only when the lengths match. -/
def decode_list : List PType → List Json → Except Error (List CppVal)
  | [], [] => .ok []
  | t :: ts, j :: js =>
    match decode_param t j with
    | .error e => .error e
    | .ok v =>
      match decode_list ts js with
      | .error e => .error e
      | .ok vs => .ok (v :: vs)
  | _, _ => .error ⟨invalidParamsCode, "参数数量不匹配", Json.jnull⟩

/-- Mirrors `extract_args<Args...>` (`type_converter.hpp` lines 290-340).  The
arity-0 specialization accepts null or an empty array; otherwise `params`
must be an array whose length equals the declared arity, and each element is
decoded positionally. -/
def extract_args (tys : List PType) (params : Json) : Except Error (List CppVal) :=
  match tys with
  | [] =>
    if ! (params.isNull || params.isArray) then
      .error ⟨invalidParamsCode, "params 必须是 null 或 array", Json.jnull⟩
    else
      match params with
      | Json.jarr (_ :: _) => .error ⟨invalidParamsCode, "期望无参数，但提供了参数", Json.jnull⟩
      | _ => .ok []
  | _ :: _ =>
    match params with
    | Json.jarr arr =>
      if arr.length ≠ tys.length then
        .error ⟨invalidParamsCode, "参数数量不匹配：期望 " ++ toString tys.length ++
          " 个，实际 " ++ toString arr.length ++ " 个", Json.jnull⟩
      else
        decode_list tys arr
    | _ => .error ⟨invalidParamsCode, "params 必须是 array", Json.jnull⟩

/-! ## Method wrapper and registry (`detail/method_wrapper.hpp`,
`impl/method_registry.ipp`) -/

/-- A declared return value (`json_converter<R>::to_json` inputs; `rvoid`
is the void specialization). -/
inductive RetVal where
  | rint (n : Int)
  | rint64 (n : Int)
  | ruint64 (n : Nat)
  | rbool (b : Bool)
  | rstring (s : String)
  | rvoid
deriving DecidableEq, Inhabited

/-- Mirrors `json_converter<R>::to_json` on the return value; void maps to null. -/
def encode_ret : RetVal → Json
  | RetVal.rint n => Json.jint n
  | RetVal.rint64 n => Json.jint n
  | RetVal.ruint64 n => Json.juint n
  | RetVal.rbool b => Json.jbool b
  | RetVal.rstring s => Json.jstr s
  | RetVal.rvoid => Json.jnull

/-- Outcome of running a user procedure body: normal return, a thrown
`jsonrpc::Error`, or any other thrown `std::exception` (identified by its
`what()` message). -/
inductive ProcOutcome where
  | success (v : RetVal)
  | rpcError (e : Error)
  | otherError (msg : String)
deriving Inhabited

/-- A registered procedure: declared parameter types plus the user body. -/
structure Procedure where
  argTypes : List PType
  run : List CppVal → ProcOutcome

/-- Mirrors `MethodWrapperImpl::invoke` (`method_wrapper.hpp` lines 179-220):
extract arguments, call the body, encode the return value; a thrown `Error`
is rethrown unchanged, any other exception is wrapped as `InternalError`
with prefix "方法执行失败: ". -/
def MethodWrapperImpl.invoke (p : Procedure) (params : Json) : Except Error Json :=
  match extract_args p.argTypes params with
  | .error e => .error e
  | .ok args =>
    match p.run args with
    | ProcOutcome.success v => .ok (encode_ret v)
    | ProcOutcome.rpcError e => .error e
    | ProcOutcome.otherError msg =>
      .error ⟨internalErrorCode, "方法执行失败: " ++ msg, Json.jnull⟩

/-- The registry's method table (`std::map<std::string, wrapper>`);
`register_method` overwrites, so lookup returns the latest binding. -/
def MethodRegistry := List (String × Procedure)

/-- Mirrors `methods_.find(name)` — most recent binding wins. -/
def MethodRegistry.find? : MethodRegistry → String → Option Procedure
  | [], _ => none
  | (n, p) :: rest, name => if n == name then some p else MethodRegistry.find? rest name

/-- Mirrors `MethodRegistry::register_method`: `methods_[name] = wrapper`
(last write wins). -/
def MethodRegistry.register_method (reg : MethodRegistry) (name : String)
    (p : Procedure) : MethodRegistry :=
  (name, p) :: reg

/-- Mirrors `MethodRegistry::invoke` (`method_registry.ipp` lines 61-94): look up
the method (absent → `MethodNotFound`), run the wrapper; a thrown `Error`
becomes an error response verbatim, any other `std::exception` is wrapped
as `InternalError` with prefix "内部错误: " (the wrapper already converted
its own exceptions, so only `Error` reaches this handler).  Always returns a
response carrying the request's id. -/
def MethodRegistry.invoke (reg : MethodRegistry) (req : Request) : Response :=
  match reg.find? req.method with
  | none =>
    Response.mkError ⟨methodNotFoundCode, "方法不存在: " ++ req.method, Json.jnull⟩ req.id
  | some p =>
    match MethodWrapperImpl.invoke p req.params with
    | .ok v => Response.mkResult v req.id
    | .error e => Response.mkError e req.id

/-- The task posted for index `i` by `invoke_batch` (`method_registry.ipp`
lines 119-144): invoke the request; record the tagged response only when the
request has an id, otherwise the outcome (including any error) is dropped. -/
def batch_task (reg : MethodRegistry) (reqs : List Request) (i : Nat) :
    Option (Nat × Response) :=
  match reqs.get? i with
  | some r => if r.has_id then some (i, reg.invoke r) else none
  | none => none

/-- Mirrors `MethodRegistry::invoke_batch` (`method_registry.ipp` lines 100-163).
The worker pool completes the per-index tasks in some wall-clock order
`order` — any permutation of the indices, which is the only observable
effect of the pool's size (≥ 1); the tagged responses accumulate in that
order and are then sorted by original index (`std::sort` by `index <`). -/
def MethodRegistry.invoke_batch (reg : MethodRegistry) (reqs : List Request)
    (order : List Nat) : List Response :=
  if reqs.isEmpty then []
  else
    (((order.filterMap (batch_task reg reqs)).mergeSort
        (fun a b => a.1 ≤ b.1)).map (fun e => e.2))

/-! ## Server session processing (`impl/server_session.ipp` lines 113-162)
and pool state (`impl/method_registry.ipp` lines 15-41, `impl/server.ipp`
lines 288-293) -/

/-- The HTTP reply produced for one request body: status code plus the
JSON-RPC body (at the JSON-value level; `none` is an empty body). -/
structure HttpReply where
  status : Nat
  body : Option Json

/-- Mirrors `ServerSession::process_request` after the POST and Content-Type
checks: parse the body (errors become an in-band id-null error response
with HTTP 200); `is_batch` is `requests.size() > 1 || is_batch_request`;
dispatch through `invoke_batch`; a batch serializes as an array (even when
empty), a single request serializes `responses[0]`, and a single
notification (no responses, not a batch) yields `204 No Content`. -/
def process_request_core (reg : MethodRegistry) (order : List Nat) (jv : Json) :
    HttpReply :=
  match Protocol.parse_request_value jv with
  | .error e => ⟨200, some (Response.mkError e Json.jnull).to_json⟩
  | .ok reqs =>
    let isBatch := decide (reqs.length > 1) || Protocol.is_batch_request jv
    let responses := reg.invoke_batch reqs order
    if isBatch then
      ⟨200, some (Protocol.serialize_batch_response_value responses)⟩
    else
      match responses with
      | r :: _ => ⟨200, some (Protocol.serialize_response_value r)⟩
      | [] => ⟨204, none⟩

/-- The batch worker pool, identified by its thread count
(`boost::asio::thread_pool(threads)`). -/
structure ThreadPool where
  threads : Nat
deriving DecidableEq, Inhabited

/-- The pool-related state of `MethodRegistry`: configured thread count and
the current pool handle. -/
structure RegistryPoolState where
  batch_thread_count : Nat
  batch_pool : Option ThreadPool
deriving DecidableEq, Inhabited

/-- Mirrors `MethodRegistry::MethodRegistry` (`method_registry.ipp` lines 15-19):
count `max(2, hardware_concurrency)`, pool created through
`static_cast<unsigned>` of that count (an identity here because
`hardware_concurrency()` itself returns an `unsigned`).  `hw` is
`std::thread::hardware_concurrency()` (may be 0). -/
def RegistryPoolState.init (hw : Nat) : RegistryPoolState :=
  ⟨max 2 hw, some ⟨(max 2 hw) % 2 ^ 32⟩⟩

/-- Mirrors `MethodRegistry::set_batch_concurrency` (`method_registry.ipp` lines
21-33): clamp 0 to 1, stop+join the old pool, spawn a fresh pool of
`static_cast<unsigned>(batch_thread_count_)` threads — the stored `size_t`
count is truncated modulo 2^32 when the pool is built (line 32). -/
def RegistryPoolState.set_batch_concurrency (_s : RegistryPoolState) (threads : Nat) :
    RegistryPoolState :=
  let t := if threads = 0 then 1 else threads
  { batch_thread_count := t, batch_pool := some ⟨t % 2 ^ 32⟩ }

/-- Mirrors `MethodRegistry::get_batch_pool` (`method_registry.ipp` lines 35-41):
lazily recreate the pool from the configured count, again through the
`static_cast<unsigned>` truncation (line 38). -/
def RegistryPoolState.get_batch_pool (s : RegistryPoolState) :
    ThreadPool × RegistryPoolState :=
  match s.batch_pool with
  | some p => (p, s)
  | none =>
    (⟨s.batch_thread_count % 2 ^ 32⟩,
      { s with batch_pool := some ⟨s.batch_thread_count % 2 ^ 32⟩ })

/-- The server-visible state for the resize guard: the atomic `running_`
flag plus the registry's pool state. -/
structure ServerState where
  running : Bool
  registry : RegistryPoolState
deriving DecidableEq, Inhabited

/-- Mirrors `Server::set_batch_concurrency` (`server.ipp` lines 288-293): while
running it throws `std::logic_error` (modelled as `Except.error` carrying
the message) and the registry is untouched; otherwise it delegates to the
registry's resize. -/
def ServerState.set_batch_concurrency (s : ServerState) (threads : Nat) :
    Except String ServerState :=
  if s.running then
    .error "服务器正在运行时无法调整批量线程池，请先 stop()"
  else
    .ok { s with registry := s.registry.set_batch_concurrency threads }

/-! ## Helper predicates and lemmas -/

/-- Success test for an `Except` computation ("no exception was thrown"). -/
def isOk {ε α : Type _} : Except ε α → Bool
  | .ok _ => true
  | .error _ => false

theorem isOk_ok {ε α : Type _} (v : α) : isOk (ε := ε) (.ok v) = true := rfl

theorem isOk_error {ε α : Type _} (e : ε) : isOk (α := α) (.error e) = false := rfl

/-- Every failure of a scalar `json_converter` carries `InvalidParams`. -/
theorem decode_param_error_code (t : PType) (jv : Json) (e : Error)
    (h : decode_param t jv = .error e) : e.code = invalidParamsCode := by
  cases t <;> cases jv <;>
    simp [decode_param, json_converter_int_from_json, json_converter_int64_from_json,
      json_converter_uint64_from_json, json_converter_bool_from_json,
      json_converter_string_from_json, Except.map] at h <;>
    simp [← h]

/-- Truncation is the identity exactly on the int32 range. -/
theorem toInt32_eq_self {n : Int} (h₁ : -(2 ^ 31) ≤ n) (h₂ : n < 2 ^ 31) :
    toInt32 n = n := by
  have h0 : (0 : Int) ≤ n + 2 ^ 31 := by omega
  have hlt : n + 2 ^ 31 < 2 ^ 32 := by omega
  simp only [toInt32]
  rw [Int.emod_eq_of_lt h0 hlt]
  omega

/-- Positional decoding succeeds iff each element decodes at its declared
type, given matching lengths; every failure is `InvalidParams`. -/
theorem decode_list_spec : ∀ (ts : List PType) (js : List Json),
    (ts.length = js.length →
      (isOk (decode_list ts js) = true ↔
        ∀ p ∈ ts.zip js, isOk (decode_param p.1 p.2) = true)) ∧
    (∀ e, decode_list ts js = .error e → e.code = invalidParamsCode)
  | [], [] => by simp [decode_list, isOk]
  | [], _ :: _ => by simp [decode_list, isOk]
  | _ :: _, [] => by simp [decode_list, isOk]
  | t :: ts, j :: js => by
    constructor
    · intro hlen
      have ih := (decode_list_spec ts js).1 (by simpa using hlen)
      constructor
      · intro h p hp
        simp only [decode_list] at h
        cases hd : decode_param t j with
        | error e => rw [hd] at h; simp [isOk] at h
        | ok v =>
          rw [hd] at h
          cases hrest : decode_list ts js with
          | error e => rw [hrest] at h; simp [isOk] at h
          | ok vs =>
            rcases List.mem_cons.mp (by simpa using hp) with h1 | h1
            · subst h1; simp [hd, isOk]
            · exact (ih.mp (by simp [hrest, isOk])) _ h1
      · intro h
        have h1 : isOk (decode_param t j) = true := h (t, j) (by simp)
        have h2 : ∀ p ∈ ts.zip js, isOk (decode_param p.1 p.2) = true := by
          intro p hp; exact h p (by simp [hp])
        obtain ⟨v, hd⟩ : ∃ v, decode_param t j = .ok v := by
          cases hx : decode_param t j with
          | error e => rw [hx] at h1; simp [isOk] at h1
          | ok v => exact ⟨v, rfl⟩
        obtain ⟨vs, hrest⟩ : ∃ vs, decode_list ts js = .ok vs := by
          have hr := ih.mpr h2
          cases hx : decode_list ts js with
          | error e => rw [hx] at hr; simp [isOk] at hr
          | ok vs => exact ⟨vs, rfl⟩
        simp [decode_list, hd, hrest, isOk]
    · intro e he
      have ih := (decode_list_spec ts js).2
      simp only [decode_list] at he
      cases hd : decode_param t j with
      | error e' =>
        rw [hd] at he
        simp only [Except.error.injEq] at he
        exact he ▸ decode_param_error_code t j e' hd
      | ok v =>
        rw [hd] at he
        cases hrest : decode_list ts js with
        | error e' =>
          rw [hrest] at he
          simp only [Except.error.injEq] at he
          exact he ▸ ih e' hrest
        | ok vs => rw [hrest] at he; simp at he

/-- All error exits of `extract_args` are `InvalidParams`. -/
theorem extract_args_error_code (tys : List PType) (params : Json) (e : Error)
    (h : extract_args tys params = .error e) : e.code = invalidParamsCode := by
  cases tys with
  | nil =>
    simp only [extract_args] at h
    split at h
    · simp at h; simp [← h]
    · split at h
      · simp at h; simp [← h]
      · simp at h
  | cons t ts =>
    cases params
    case jarr arr =>
      simp only [extract_args] at h
      split at h
      · simp only [Except.error.injEq] at h; simp [← h]
      · exact (decode_list_spec (t :: ts) arr).2 e h
    all_goals (simp only [extract_args, Except.error.injEq] at h; simp [← h])

/-- C6 helper: kind tests characterize converter success. -/
theorem converter_kind_iff (jv : Json) :
    isOk (json_converter_int_from_json jv) = jv.isInt64 ∧
    isOk (json_converter_int64_from_json jv) = jv.isInt64 ∧
    isOk (json_converter_uint64_from_json jv) = jv.isUint64 := by
  cases jv <;> simp [json_converter_int_from_json, json_converter_int64_from_json,
    json_converter_uint64_from_json, Json.isInt64, Json.isUint64, isOk]

/-! ## C6: integer scalar decoding -/

/-- C6 counterexample: the claim says a JSON integer that does not fit the
declared 32-bit target type fails with `InvalidParams`, but
`json_converter<int>::from_json` accepts any int64-kind value:
`2^32 = 4294967296` is outside the `int` range yet decodes successfully
(to `0`, by `static_cast<int>` truncation) instead of failing. -/
theorem c6_counterexample :
    (2 ^ 31 - 1 : Int) < 4294967296 ∧
    json_converter_int_from_json (Json.jint 4294967296) = Except.ok 0 :=
  ⟨by decide, congrArg Except.ok (by decide)⟩

/-- C6 amended: decoding into an integer parameter type succeeds exactly
when the JSON value is of matching integer kind (int64 kind for `int` and
`int64_t`, uint64 kind for `uint64_t`); in-kind values decode to
themselves for the 64-bit types (widening within the signedness), while
`int` truncates to 32 bits by `static_cast` instead of rejecting
out-of-range values; every kind mismatch fails with `InvalidParams`. -/
theorem c6_integer_scalar_decoding :
    (∀ jv : Json,
      isOk (json_converter_int_from_json jv) = jv.isInt64 ∧
      isOk (json_converter_int64_from_json jv) = jv.isInt64 ∧
      isOk (json_converter_uint64_from_json jv) = jv.isUint64) ∧
    (∀ n : Int, json_converter_int64_from_json (Json.jint n) = .ok n) ∧
    (∀ n : Nat, json_converter_uint64_from_json (Json.juint n) = .ok n) ∧
    (∀ n : Int, json_converter_int_from_json (Json.jint n) = .ok (toInt32 n)) ∧
    (∀ n : Int, -(2 ^ 31) ≤ n → n < 2 ^ 31 →
      json_converter_int_from_json (Json.jint n) = .ok n) ∧
    (∀ jv e, json_converter_int_from_json jv = .error e → e.code = invalidParamsCode) ∧
    (∀ jv e, json_converter_int64_from_json jv = .error e → e.code = invalidParamsCode) ∧
    (∀ jv e, json_converter_uint64_from_json jv = .error e → e.code = invalidParamsCode) := by
  refine ⟨converter_kind_iff, fun n => rfl, fun n => rfl, fun n => rfl, ?_, ?_, ?_, ?_⟩
  · intro n h₁ h₂
    simp [json_converter_int_from_json, toInt32_eq_self h₁ h₂]
  · intro jv e h
    cases jv <;> simp [json_converter_int_from_json] at h <;> simp [← h]
  · intro jv e h
    cases jv <;> simp [json_converter_int64_from_json] at h <;> simp [← h]
  · intro jv e h
    cases jv <;> simp [json_converter_uint64_from_json] at h <;> simp [← h]

/-- Witness for C6: the hypotheses of the amended theorem discharged at
concrete inputs. -/
theorem c6_integer_scalar_decoding_witness :
    json_converter_int_from_json (Json.jint 7) = .ok 7 ∧
    (⟨invalidParamsCode, "期望 uint64 类型", Json.jnull⟩ : Error).code = invalidParamsCode :=
  ⟨c6_integer_scalar_decoding.2.2.2.2.1 7 (by decide) (by decide),
   c6_integer_scalar_decoding.2.2.2.2.2.2.2 (Json.jstr "x") _ rfl⟩

/-! ## C7: parameter extraction -/

/-- C7: for declared arity 0, extraction succeeds iff `params` is null
(which is also how an absent `params` is stored by `Request::from_json`)
or an empty array; for declared arity N ≥ 1 it succeeds iff `params` is an
array of length exactly N whose every element decodes at its declared
positional type; every failure carries `InvalidParams`. -/
theorem c7_extract_args_spec (tys : List PType) (params : Json) :
    (isOk (extract_args tys params) = true ↔
      (tys = [] ∧ (params = Json.jnull ∨ params = Json.jarr [])) ∨
      (tys ≠ [] ∧ ∃ js, params = Json.jarr js ∧ js.length = tys.length ∧
        ∀ p ∈ tys.zip js, isOk (decode_param p.1 p.2) = true)) ∧
    (∀ e, extract_args tys params = .error e → e.code = invalidParamsCode) := by
  refine ⟨?_, extract_args_error_code tys params⟩
  cases tys with
  | nil =>
    cases params <;>
      simp only [extract_args, Json.isNull, Json.isArray] <;>
      simp [isOk]
    case jarr elems => cases elems <;> simp [isOk]
  | cons t ts =>
    cases params
    case jarr elems =>
      simp only [extract_args]
      by_cases hlen : elems.length = (t :: ts).length
      · rw [if_neg (by simp [hlen])]
        rw [(decode_list_spec (t :: ts) elems).1 hlen.symm]
        constructor
        · intro h
          exact Or.inr ⟨by simp, elems, rfl, hlen, h⟩
        · rintro (⟨h, _⟩ | ⟨_, js, hjs, _, hall⟩)
          · exact absurd h (by simp)
          · injection hjs with h'
            subst h'
            exact hall
      · rw [if_pos (by simpa using hlen)]
        simp only [isOk]
        constructor
        · intro h; cases h
        · rintro (⟨h, _⟩ | ⟨_, js, hjs, hl, _⟩)
          · simp at h
          · injection hjs with h'
            subst h'
            exact absurd hl hlen
    all_goals simp [extract_args, isOk]

/-- Witness for C7: arity 0 with null params succeeds; a kind mismatch is
reported as `InvalidParams`. -/
theorem c7_extract_args_spec_witness :
    isOk (extract_args [] Json.jnull) = true ∧
    (⟨invalidParamsCode, "params 必须是 array", Json.jnull⟩ : Error).code =
      invalidParamsCode :=
  ⟨(c7_extract_args_spec [] Json.jnull).1.mpr (Or.inl ⟨rfl, Or.inl rfl⟩),
   (c7_extract_args_spec [PType.pint] Json.jnull).2 _ rfl⟩

/-! ## C8: resize guard, and C9: pool-size invariant -/

/-- C8: `Server::set_batch_concurrency` while `running_` is set throws
`std::logic_error` without touching the registry (the model returns the
error and no successor state, so the pool is unchanged); while stopped it
succeeds, leaving the server stopped and replacing the registry's pool with
a freshly built one — the count clamped at 0 and, as in the source's
`static_cast<unsigned>`, truncated modulo 2^32 when the pool is spawned
(the C++ stops and joins the old pool before constructing the new one). -/
theorem c8_resize_guard :
    (∀ (s : ServerState) (threads : Nat), s.running = true →
      s.set_batch_concurrency threads =
        .error "服务器正在运行时无法调整批量线程池，请先 stop()") ∧
    (∀ (s : ServerState) (threads : Nat), s.running = false →
      s.set_batch_concurrency threads =
        .ok ⟨false, ⟨if threads = 0 then 1 else threads,
          some ⟨(if threads = 0 then 1 else threads) % 2 ^ 32⟩⟩⟩) := by
  constructor
  · intro s threads h
    simp [ServerState.set_batch_concurrency, h]
  · intro s threads h
    cases s with
    | mk running registry =>
      cases h
      simp [ServerState.set_batch_concurrency, RegistryPoolState.set_batch_concurrency]

/-- Witness for C8 at concrete states. -/
theorem c8_resize_guard_witness :
    (ServerState.set_batch_concurrency ⟨true, ⟨2, some ⟨2⟩⟩⟩ 4 =
      .error "服务器正在运行时无法调整批量线程池，请先 stop()") ∧
    (ServerState.set_batch_concurrency ⟨false, ⟨2, some ⟨2⟩⟩⟩ 0 =
      .ok ⟨false, ⟨1, some ⟨1⟩⟩⟩) :=
  ⟨c8_resize_guard.1 ⟨true, ⟨2, some ⟨2⟩⟩⟩ 4 rfl,
   c8_resize_guard.2 ⟨false, ⟨2, some ⟨2⟩⟩⟩ 0 rfl⟩

/-- C9: the claim (and the header's own documentation, "最小为 1") promise a
pool of ≥ 1 threads for every argument, and the source's explicit 0→1 clamp
shows that intent; but `set_batch_concurrency(2^32)` passes the clamp
(2^32 ≠ 0) and the `static_cast<unsigned>` at `method_registry.ipp` line 32
truncates the count to 0, so the code builds `boost::asio::thread_pool(0)`
— zero worker threads.  This theorem evaluates the faithful model at that
failing input. -/
theorem c9_zero_thread_pool :
    (RegistryPoolState.set_batch_concurrency ⟨2, some ⟨2⟩⟩ (2 ^ 32)).batch_pool =
      some ⟨0⟩ ∧
    (2 : Nat) ^ 32 ≠ 0 ∧
    ¬ (1 ≤ (0 : Nat)) := by
  refine ⟨?_, by decide, by decide⟩
  simp [RegistryPoolState.set_batch_concurrency]

/-! ## C1: parser strictness on single request objects -/

/-- The envelope violations that `Request::from_json` actually rejects:
bad/missing version, bad/missing method, `params` present but not
array/object/null, `id` present but not string/*number*/null.  (The claim
said "integer" where the code checks `is_number()`.) -/
def violates_envelope (jv : Json) : Bool :=
  (! version_ok jv) ||
  (match jv.find? "method" with
   | some (Json.jstr _) => false
   | _ => true) ||
  (match jv.find? "params" with
   | some p => ! (p.isArray || p.isObject || p.isNull)
   | none => false) ||
  (match jv.find? "id" with
   | some i => ! (i.isString || i.isNumber || i.isNull)
   | none => false)

/-- C1 counterexample: a request whose `id` is the double `1.5` — present
and neither null, string, nor integer — is *accepted* by `parse_request`
(the code checks `is_number()`, which doubles satisfy), contradicting the
claim that such envelopes fail with `InvalidRequest`. -/
theorem c1_counterexample :
    (Json.jobj [("jsonrpc", Json.jstr "2.0"), ("method", Json.jstr "probe"),
      ("id", Json.jdouble "1.5")]).find? "id" = some (Json.jdouble "1.5") ∧
    Protocol.parse_request_value
      (Json.jobj [("jsonrpc", Json.jstr "2.0"), ("method", Json.jstr "probe"),
        ("id", Json.jdouble "1.5")]) =
      Except.ok [⟨"probe", Json.jnull, Json.jdouble "1.5", true⟩] :=
  ⟨rfl, rfl⟩

/-- C1 amended: for every top-level JSON object violating the envelope
rules — missing `jsonrpc`, `jsonrpc ≠ "2.0"`, missing `method`, `method`
not a string, `params` present but neither null/array/object, or `id`
present but neither null, string, nor **number** — `parse_request` fails
with an `InvalidRequest` error (code −32600). -/
theorem c1_invalid_envelope_rejected (jv : Json) (hobj : jv.isObject = true)
    (hviol : violates_envelope jv = true) :
    ∃ msg, Protocol.parse_request_value jv =
      .error ⟨invalidRequestCode, msg, Json.jnull⟩ := by
  cases jv
  case jobj ms =>
    suffices h : ∃ msg, Request.from_json (Json.jobj ms) =
        .error ⟨invalidRequestCode, msg, Json.jnull⟩ by
      obtain ⟨msg, hm⟩ := h
      exact ⟨msg, by simp [Protocol.parse_request_value, hm, Except.map]⟩
    cases hv : version_ok (Json.jobj ms) with
    | false =>
      exact ⟨"缺少或无效的 jsonrpc 版本字段",
        by simp [Request.from_json, Json.isObject_jobj, hv]⟩
    | true =>
      simp only [violates_envelope, hv, Bool.not_true, Bool.false_or] at hviol
      cases hm : (Json.jobj ms).find? "method" with
      | none =>
        exact ⟨"缺少或无效的 method 字段",
          by simp [Request.from_json, Json.isObject_jobj, hv, hm]⟩
      | some mv =>
        cases mv
        case jstr m =>
          simp only [hm, Bool.false_or, Bool.or_eq_true] at hviol
          rcases hviol with h | h
          · -- params violation
            cases hp : (Json.jobj ms).find? "params" with
            | none => simp [hp] at h
            | some p =>
              rw [hp] at h
              simp only [Bool.not_eq_true', Bool.or_eq_false_iff] at h
              obtain ⟨⟨h1, h2⟩, h3⟩ := h
              exact ⟨"params 必须是 array 或 object",
                by simp [Request.from_json, Json.isObject_jobj, hv, hm, hp, h1, h2, h3]⟩
          · -- id violation
            cases hi : (Json.jobj ms).find? "id" with
            | none => simp [hi] at h
            | some i =>
              rw [hi] at h
              simp only [Bool.not_eq_true', Bool.or_eq_false_iff] at h
              obtain ⟨⟨g1, g2⟩, g3⟩ := h
              cases hp : (Json.jobj ms).find? "params" with
              | none =>
                exact ⟨"id 必须是 string、number 或 null",
                  by simp [Request.from_json, Json.isObject_jobj, hv, hm, hp, hi,
                    g1, g2, g3]⟩
              | some p =>
                by_cases hpk : (p.isArray || p.isObject || p.isNull) = true
                · refine ⟨"id 必须是 string、number 或 null", ?_⟩
                  simp only [Bool.or_eq_true] at hpk
                  rcases hpk with (h' | h') | h' <;>
                    simp [Request.from_json, Json.isObject_jobj, hv, hm, hp, hi,
                      g1, g2, g3, h']
                · refine ⟨"params 必须是 array 或 object", ?_⟩
                  simp only [Bool.not_eq_true, Bool.or_eq_false_iff] at hpk
                  obtain ⟨⟨h1, h2⟩, h3⟩ := hpk
                  simp [Request.from_json, Json.isObject_jobj, hv, hm, hp, h1, h2, h3]
        all_goals
          exact ⟨"缺少或无效的 method 字段",
            by simp [Request.from_json, Json.isObject_jobj, hv, hm]⟩
  all_goals simp [Json.isObject] at hobj

/-- Witness for C1: a request object with `jsonrpc: "1.0"` is rejected
with code −32600. -/
theorem c1_invalid_envelope_rejected_witness :
    ∃ msg, Protocol.parse_request_value
      (Json.jobj [("jsonrpc", Json.jstr "1.0"), ("method", Json.jstr "m")]) =
      .error ⟨invalidRequestCode, msg, Json.jnull⟩ :=
  c1_invalid_envelope_rejected
    (Json.jobj [("jsonrpc", Json.jstr "1.0"), ("method", Json.jstr "m")]) rfl rfl

/-! ## C5: envelope round-trip -/

/-- The id kinds the claim admits for a valid request: null, string, or
integer (either boost integer kind). -/
def id_kind_ok (j : Json) : Bool :=
  j.isNull || j.isString || j.isInt64 || j.isUint64

/-- Mirrors `int` range check: `Error::code_` is a C++ `int`. -/
def in_int32_range (n : Int) : Bool :=
  decide (-(2 ^ 31) ≤ n) && decide (n < 2 ^ 31)

/-- A valid request per the amended claim: a NUL-free string method (a
method containing an embedded NUL is truncated by the `c_str()` read on
parse), `params` null/array/object, and either a notification (null id
placeholder, as the `Request` constructors guarantee) or an id of kind
null/string/integer. -/
def valid_request (r : Request) : Bool :=
  nul_free r.method &&
  (r.params.isNull || r.params.isArray || r.params.isObject) &&
  (if r.has_id then id_kind_ok r.id else r.id.isNull)

/-- A valid response per the amended claim: either an error response whose
`result_` is the constructor's null placeholder, whose code fits a C++
`int` (as `ErrorCode`'s underlying type guarantees), whose message is
NUL-free, and which carries `data` only when the message is empty (because
`Response::from_json` rebuilds the error from the moved-from message string
when `data` is present); or a success response whose `error_` is the
constructor's placeholder `Error(InternalError, "")`. -/
def valid_response (resp : Response) : Bool :=
  if resp.is_error then
    resp.result.isNull && in_int32_range resp.error.code &&
      nul_free resp.error.message &&
      (resp.error.data.isNull || resp.error.message == "")
  else
    (resp.error.code == internalErrorCode) && (resp.error.message == "") &&
      resp.error.data.isNull

/-- C5 counterexample: the claim, as stated, fails twice on the code.
An error response carrying both non-null `data` and a non-empty message
parses back with an *empty* message, because `Response::from_json`
(`types.ipp` lines 200-202) moves the message into a first `Error` and then
reuses the moved-from string; and a request whose method contains an
embedded NUL parses back truncated, because the method is read through
`as_string().c_str()` (`types.ipp` line 66). -/
theorem c5_counterexample :
    Protocol.parse_response_value (Protocol.serialize_response_value
      (Response.mkError ⟨-32000, "boom", Json.jbool true⟩ (Json.jint 1))) =
      .ok (Response.mkError ⟨-32000, "", Json.jbool true⟩ (Json.jint 1)) ∧
    ("boom" : String) ≠ "" ∧
    Protocol.parse_request_value (Protocol.serialize_request_value
      ⟨String.mk [Char.ofNat 97, Char.ofNat 0, Char.ofNat 98],
        Json.jnull, Json.jnull, false⟩) =
      .ok [⟨"a", Json.jnull, Json.jnull, false⟩] ∧
    String.mk [Char.ofNat 97, Char.ofNat 0, Char.ofNat 98] ≠ "a" := by
  refine ⟨?_, by decide, ?_, by decide⟩
  · show Except.ok (Response.mkError ⟨toInt32 (-32000), "", Json.jbool true⟩
      (Json.jint 1)) = _
    rw [show toInt32 (-32000) = -32000 from by decide]
  · rfl

/-- C5 amended: for every valid request (method NUL-free, `params`
null/array/object, id absent or of kind null/string/integer),
`parse_request ∘ serialize_request` yields the one-element list of that
very request (same method, params, id and `has_id` flag); for every valid
response (error message NUL-free, and `data` only alongside an empty
message), `parse_response ∘ serialize_response` is the identity. -/
theorem c5_envelope_roundtrip :
    (∀ r : Request, valid_request r = true →
      Protocol.parse_request_value (Protocol.serialize_request_value r) =
        .ok [r]) ∧
    (∀ resp : Response, valid_response resp = true →
      Protocol.parse_response_value (Protocol.serialize_response_value resp) =
        .ok resp) := by
  constructor
  · intro r hval
    obtain ⟨m, params, id, hid⟩ := r
    have hm : c_str_trunc m = m := c_str_trunc_eq_self (by
      have h := hval
      simp only [valid_request, Bool.and_eq_true] at h
      exact h.1.1)
    cases hid <;> cases params <;> cases id <;>
      simp_all [valid_request, id_kind_ok, Protocol.serialize_request_value,
        Protocol.parse_request_value, Request.to_json, Request.from_json,
        Json.find?, Json.find?.lookupKey, version_ok, Json.isNull, Json.isArray,
        Json.isObject, Json.isString, Json.isNumber, Json.isInt64, Json.isUint64,
        Json.isDouble, Except.map]
  · intro resp hval
    obtain ⟨iserr, result, err, id⟩ := resp
    obtain ⟨code, msg, data⟩ := err
    cases iserr
    case false =>
      simp [valid_response] at hval
      obtain ⟨⟨h1, h2⟩, h3⟩ := hval
      subst h1
      subst h2
      cases data
      case jnull =>
        simp [Protocol.parse_response_value, Protocol.serialize_response_value,
          Response.to_json, Response.from_json, Error.to_json, Response.mkResult,
          version_ok, Json.find?, Json.find?.lookupKey, Json.isObject, Json.isNull,
          c_str_trunc, nul_free]
      all_goals simp [Json.isNull] at h3
    case true =>
      simp [valid_response, in_int32_range] at hval
      obtain ⟨⟨⟨hres, h1, h2⟩, hnul⟩, hdm⟩ := hval
      have ht : toInt32 code = code := toInt32_eq_self h1 h2
      have hmsg : c_str_trunc msg = msg := c_str_trunc_eq_self hnul
      cases result
      case jnull =>
        cases data
        case jnull =>
          simp [Protocol.parse_response_value, Protocol.serialize_response_value,
            Response.to_json, Response.from_json, Error.to_json, Response.mkError,
            version_ok, Json.find?, Json.find?.lookupKey, Json.isObject,
            Json.isNull, ht, hmsg]
        all_goals
          rcases hdm with hd | hmsg0
          · simp [Json.isNull] at hd
          · subst hmsg0
            simp [Protocol.parse_response_value, Protocol.serialize_response_value,
              Response.to_json, Response.from_json, Error.to_json, Response.mkError,
              version_ok, Json.find?, Json.find?.lookupKey, Json.isObject,
              Json.isNull, ht]
      all_goals simp [Json.isNull] at hres

/-- Witness for C5: round-trip of a concrete request (with id) and a
concrete error response without data. -/
theorem c5_envelope_roundtrip_witness :
    Protocol.parse_request_value (Protocol.serialize_request_value
      ⟨"add", Json.jarr [Json.jint 1, Json.jint 2], Json.jint 7, true⟩) =
      .ok [⟨"add", Json.jarr [Json.jint 1, Json.jint 2], Json.jint 7, true⟩] ∧
    Protocol.parse_response_value (Protocol.serialize_response_value
      (Response.mkError ⟨methodNotFoundCode, "nope", Json.jnull⟩ (Json.jint 7))) =
      .ok (Response.mkError ⟨methodNotFoundCode, "nope", Json.jnull⟩ (Json.jint 7)) :=
  ⟨c5_envelope_roundtrip.1 _ (by decide), c5_envelope_roundtrip.2 _ (by decide)⟩

/-! ## C4: single invocation -/

/-- C4: `invoke` is a total function (every outcome, including thrown
`Error`s and other exceptions, is converted into a response — it never
raises), the response's id is the request's id, an unregistered method
yields `MethodNotFound` (−32601), a procedure throwing a protocol `Error`
has that error returned verbatim, and any other exception is wrapped as
`InternalError` with the original message after the "方法执行失败: "
prefix. -/
theorem c4_invoke_spec (reg : MethodRegistry) (req : Request) :
    ((reg.invoke req).id = req.id) ∧
    (reg.find? req.method = none →
      reg.invoke req =
        Response.mkError ⟨methodNotFoundCode, "方法不存在: " ++ req.method,
          Json.jnull⟩ req.id) ∧
    (∀ p args e, reg.find? req.method = some p →
      extract_args p.argTypes req.params = .ok args →
      p.run args = ProcOutcome.rpcError e →
      reg.invoke req = Response.mkError e req.id) ∧
    (∀ p args msg, reg.find? req.method = some p →
      extract_args p.argTypes req.params = .ok args →
      p.run args = ProcOutcome.otherError msg →
      reg.invoke req =
        Response.mkError ⟨internalErrorCode, "方法执行失败: " ++ msg,
          Json.jnull⟩ req.id) ∧
    (∀ p args v, reg.find? req.method = some p →
      extract_args p.argTypes req.params = .ok args →
      p.run args = ProcOutcome.success v →
      reg.invoke req = Response.mkResult (encode_ret v) req.id) := by
  refine ⟨?_, ?_, ?_, ?_, ?_⟩
  · cases hf : reg.find? req.method with
    | none => simp [MethodRegistry.invoke, hf, Response.mkError]
    | some p =>
      cases hw : MethodWrapperImpl.invoke p req.params with
      | ok v => simp [MethodRegistry.invoke, hf, hw, Response.mkResult]
      | error e => simp [MethodRegistry.invoke, hf, hw, Response.mkError]
  · intro hf
    simp [MethodRegistry.invoke, hf]
  · intro p args e hf hx hr
    simp [MethodRegistry.invoke, hf, MethodWrapperImpl.invoke, hx, hr]
  · intro p args msg hf hx hr
    simp [MethodRegistry.invoke, hf, MethodWrapperImpl.invoke, hx, hr]
  · intro p args v hf hx hr
    simp [MethodRegistry.invoke, hf, MethodWrapperImpl.invoke, hx, hr]

/-- Witness for C4: an empty registry returns `MethodNotFound` with the
request's id; a concrete one-procedure registry passes a thrown `Error`
through verbatim. -/
theorem c4_invoke_spec_witness :
    MethodRegistry.invoke [] ⟨"nope", Json.jnull, Json.jint 7, true⟩ =
      Response.mkError ⟨methodNotFoundCode, "方法不存在: nope", Json.jnull⟩
        (Json.jint 7) ∧
    MethodRegistry.invoke
      [("boom", ⟨[], fun _ => ProcOutcome.rpcError ⟨-32000, "fail", Json.jnull⟩⟩)]
      ⟨"boom", Json.jnull, Json.jint 1, true⟩ =
      Response.mkError ⟨-32000, "fail", Json.jnull⟩ (Json.jint 1) :=
  ⟨(c4_invoke_spec [] ⟨"nope", Json.jnull, Json.jint 7, true⟩).2.1 rfl,
   (c4_invoke_spec _ ⟨"boom", Json.jnull, Json.jint 1, true⟩).2.2.1
     ⟨[], fun _ => ProcOutcome.rpcError ⟨-32000, "fail", Json.jnull⟩⟩ []
     ⟨-32000, "fail", Json.jnull⟩ rfl rfl rfl⟩

/-! ## C3: batch dispatch preserves request order -/

/-- A task's tag is its own index. -/
theorem batch_task_fst {reg : MethodRegistry} {reqs : List Request} {i : Nat}
    {x : Nat × Response} (h : batch_task reg reqs i = some x) : x.1 = i := by
  simp only [batch_task] at h
  cases hg : reqs.get? i with
  | none => rw [hg] at h; cases h
  | some r =>
    rw [hg] at h
    by_cases hid : r.has_id = true
    · simp only [hid, if_true] at h
      cases h
      rfl
    · simp only [Bool.not_eq_true] at hid
      simp [hid] at h

/-- Reading a list through `range`-indexed lookups is the list itself. -/
theorem filterMap_range_get? {α β : Type _} (g : α → Option β) :
    ∀ l : List α,
      (List.range l.length).filterMap (fun i => (l.get? i).bind g) = l.filterMap g
  | [] => by simp
  | a :: l => by
    rw [List.length_cons, List.range_succ_eq_map, List.filterMap_cons]
    have hcomp : (List.map Nat.succ (List.range l.length)).filterMap
        (fun i => ((a :: l).get? i).bind g) =
        (List.range l.length).filterMap (fun i => (l.get? i).bind g) := by
      rw [List.filterMap_map]
      rfl
    rw [hcomp, filterMap_range_get? g l]
    show (match g a with
          | none => l.filterMap g
          | some b => b :: l.filterMap g) = (a :: l).filterMap g
    cases hga : g a <;> simp [List.filterMap_cons, hga]

/-- The canonical task list (completion in index order) is strictly sorted
by tag. -/
theorem canonical_pairwise (reg : MethodRegistry) (reqs : List Request) :
    ((List.range reqs.length).filterMap (batch_task reg reqs)).Pairwise
      (fun a b => a.1 < b.1) := by
  rw [List.pairwise_filterMap]
  refine (List.pairwise_lt_range reqs.length).imp ?_
  intro i j hij x hx y hy
  rw [batch_task_fst (Option.mem_def.mp hx), batch_task_fst (Option.mem_def.mp hy)]
  exact hij

/-- Keeping only id-bearing requests and invoking them is filter-then-map. -/
theorem filterMap_if_filter (reg : MethodRegistry) :
    ∀ l : List Request,
      l.filterMap (fun r => if r.has_id then some (reg.invoke r) else none) =
        (l.filter (fun r => r.has_id)).map reg.invoke
  | [] => rfl
  | a :: t => by
    by_cases h : a.has_id <;>
      simp [List.filterMap_cons, List.filter_cons, h, filterMap_if_filter reg t]

/-- Dropping the tags from a task list recovers the per-request outcomes. -/
theorem canonical_map_snd (reg : MethodRegistry) (reqs : List Request) :
    ((List.range reqs.length).filterMap (batch_task reg reqs)).map (fun e => e.2) =
      (reqs.filter (fun r => r.has_id)).map reg.invoke := by
  rw [List.map_filterMap]
  have hpt : ∀ i ∈ List.range reqs.length,
      (batch_task reg reqs i).map (fun e => e.2) =
      (reqs.get? i).bind (fun r => if r.has_id then some (reg.invoke r) else none) := by
    intro i _
    simp only [batch_task]
    cases reqs.get? i with
    | none => rfl
    | some r => by_cases h : r.has_id <;> simp [h]
  rw [List.filterMap_congr hpt,
    filterMap_range_get? (fun r => if r.has_id then some (reg.invoke r) else none) reqs]
  exact filterMap_if_filter reg reqs

/-- C3: for every registry, request list and completion order (any
permutation of the indices — the only observable freedom a worker pool of
any size ≥ 1 has), `invoke_batch` returns exactly the responses of the
id-bearing requests, in input order; notifications contribute nothing, and
their execution outcomes (including errors) appear nowhere in the result. -/
theorem c3_batch_order (reg : MethodRegistry) (reqs : List Request)
    (order : List Nat) (hperm : order.Perm (List.range reqs.length)) :
    reg.invoke_batch reqs order = (reqs.filter (fun r => r.has_id)).map reg.invoke := by
  by_cases hnil : reqs.isEmpty = true
  · cases reqs with
    | nil => simp [MethodRegistry.invoke_batch]
    | cons _ _ => simp [List.isEmpty] at hnil
  · rw [MethodRegistry.invoke_batch, if_neg hnil]
    have hperm2 : (order.filterMap (batch_task reg reqs)).Perm
        ((List.range reqs.length).filterMap (batch_task reg reqs)) :=
      hperm.filterMap (batch_task reg reqs)
    have hms : ((order.filterMap (batch_task reg reqs)).mergeSort
        (fun a b => a.1 ≤ b.1)).Perm
        ((List.range reqs.length).filterMap (batch_task reg reqs)) :=
      (List.mergeSort_perm _ _).trans hperm2
    have hsorted_le : ((order.filterMap (batch_task reg reqs)).mergeSort
        (fun a b => a.1 ≤ b.1)).Pairwise (fun a b => a.1 ≤ b.1) := by
      have := @List.sorted_mergeSort (Nat × Response)
        (fun a b : Nat × Response => decide (a.1 ≤ b.1))
        (fun a b c hab hbc => by
          simp only [decide_eq_true_eq] at hab hbc ⊢
          omega)
        (fun a b => by
          simp only [decide_eq_true_eq]
          by_cases h : a.1 ≤ b.1
          · simp [h]
          · simp [h]; omega)
        (order.filterMap (batch_task reg reqs))
      exact this.imp (fun h => by simpa using h)
    have hnodup : (((List.range reqs.length).filterMap
        (batch_task reg reqs)).map Prod.fst).Nodup :=
      ((List.pairwise_map (f := Prod.fst)).mpr
        (canonical_pairwise reg reqs)).imp Nat.ne_of_lt
    have hnodup' : (((order.filterMap (batch_task reg reqs)).mergeSort
        (fun a b => a.1 ≤ b.1)).map Prod.fst).Nodup :=
      ((hms.map Prod.fst).nodup_iff).mpr hnodup
    have hpair_ne : ((order.filterMap (batch_task reg reqs)).mergeSort
        (fun a b => a.1 ≤ b.1)).Pairwise (fun a b => a.1 ≠ b.1) :=
      (List.pairwise_map (f := Prod.fst)).mp hnodup'
    have hsorted_strict : ((order.filterMap (batch_task reg reqs)).mergeSort
        (fun a b => a.1 ≤ b.1)).Pairwise (fun a b => a.1 < b.1) :=
      (hsorted_le.and hpair_ne).imp (fun h => lt_of_le_of_ne h.1 h.2)
    haveI : IsAntisymm (Nat × Response) (fun a b => a.1 < b.1) :=
      ⟨fun a b h1 h2 => absurd h2 (Nat.lt_asymm h1)⟩
    have heq : (order.filterMap (batch_task reg reqs)).mergeSort
        (fun a b => a.1 ≤ b.1) =
        (List.range reqs.length).filterMap (batch_task reg reqs) :=
      List.eq_of_perm_of_sorted hms hsorted_strict (canonical_pairwise reg reqs)
    rw [heq, canonical_map_snd]

/-- Witness for C3: a mixed batch (request, notification, request) run with
a reversed completion order still yields the id-bearing responses in input
order. -/
theorem c3_batch_order_witness :
    MethodRegistry.invoke_batch []
      [⟨"a", Json.jnull, Json.jint 1, true⟩,
       ⟨"n", Json.jnull, Json.jnull, false⟩,
       ⟨"b", Json.jnull, Json.jint 2, true⟩] [2, 1, 0] =
      ([⟨"a", Json.jnull, Json.jint 1, true⟩,
        ⟨"n", Json.jnull, Json.jnull, false⟩,
        ⟨"b", Json.jnull, Json.jint 2, true⟩].filter
          (fun r => r.has_id)).map (MethodRegistry.invoke []) :=
  c3_batch_order [] _ [2, 1, 0] (by decide)

/-! ## C2: notification replies, and C10: atomic batch rejection -/

/-- A batch consisting only of notifications produces no tagged responses,
whatever the completion order. -/
theorem invoke_batch_no_id (reg : MethodRegistry) (reqs : List Request)
    (order : List Nat) (h : ∀ r ∈ reqs, r.has_id = false) :
    reg.invoke_batch reqs order = [] := by
  by_cases hnil : reqs.isEmpty = true
  · simp [MethodRegistry.invoke_batch, hnil]
  · rw [MethodRegistry.invoke_batch, if_neg hnil]
    have hfm : order.filterMap (batch_task reg reqs) = [] := by
      rw [List.filterMap_eq_nil_iff]
      intro i _
      simp only [batch_task]
      cases hg : reqs.get? i with
      | none => rfl
      | some r =>
        have := h r (List.get?_mem hg)
        simp [this]
    rw [hfm, List.mergeSort_nil]
    rfl

/-- C2 counterexample: a batch (JSON array) containing a single
notification is answered with HTTP 200 and body `[]` — the `is_batch`
branch serializes the empty response array — not with 204 and an empty
body as the claim states. -/
theorem c2_counterexample :
    process_request_core [] [0]
      (Json.jarr [Json.jobj [("jsonrpc", Json.jstr "2.0"),
        ("method", Json.jstr "log")]]) =
      ⟨200, some (Json.jarr [])⟩ ∧ (200 : Nat) ≠ 204 := by
  constructor
  · have hresp : MethodRegistry.invoke_batch []
        [⟨"log", Json.jnull, Json.jnull, false⟩] [0] = [] := by
      refine invoke_batch_no_id [] _ [0] ?_
      intro r hr
      rcases List.mem_singleton.mp hr with rfl
      rfl
    have hparse : Protocol.parse_request_value
        (Json.jarr [Json.jobj [("jsonrpc", Json.jstr "2.0"),
          ("method", Json.jstr "log")]]) =
        .ok [⟨"log", Json.jnull, Json.jnull, false⟩] := rfl
    simp [process_request_core, hparse, Protocol.is_batch_request, Json.isArray,
      hresp, Protocol.serialize_batch_response_value]
  · decide

/-- C2 amended: a single (non-array) notification is answered `204 No
Content` with an empty body; a batch — a JSON array — whose parsed
requests are all notifications is answered HTTP 200 with the empty JSON
array `[]` as body. -/
theorem c2_notification_replies :
    (∀ (reg : MethodRegistry) (order : List Nat) (jv : Json) (r : Request),
      jv.isArray = false →
      Request.from_json jv = .ok r →
      r.has_id = false →
      process_request_core reg order jv = ⟨204, none⟩) ∧
    (∀ (reg : MethodRegistry) (order : List Nat) (elems : List Json)
        (reqs : List Request),
      Protocol.parse_request_value (Json.jarr elems) = .ok reqs →
      (∀ r ∈ reqs, r.has_id = false) →
      process_request_core reg order (Json.jarr elems) =
        ⟨200, some (Json.jarr [])⟩) := by
  constructor
  · intro reg order jv r hnotarr hok hid
    have hresp : reg.invoke_batch [r] order = [] := by
      refine invoke_batch_no_id reg [r] order ?_
      intro r' hr'
      rcases List.mem_singleton.mp hr' with rfl
      exact hid
    cases jv
    case jarr es => simp [Json.isArray] at hnotarr
    all_goals
      simp [process_request_core, Protocol.parse_request_value, hok, Except.map,
        Protocol.is_batch_request, Json.isArray, hresp]
  · intro reg order elems reqs hparse hnoid
    have hresp : reg.invoke_batch reqs order = [] :=
      invoke_batch_no_id reg reqs order hnoid
    simp [process_request_core, hparse, Protocol.is_batch_request, Json.isArray,
      hresp, Protocol.serialize_batch_response_value]

/-- Witness for C2 (amended): a concrete single notification gets 204, and
a concrete two-notification batch gets 200 with body `[]`. -/
theorem c2_notification_replies_witness :
    process_request_core [] []
      (Json.jobj [("jsonrpc", Json.jstr "2.0"), ("method", Json.jstr "log")]) =
      ⟨204, none⟩ ∧
    process_request_core [] [0, 1]
      (Json.jarr [Json.jobj [("jsonrpc", Json.jstr "2.0"), ("method", Json.jstr "a")],
        Json.jobj [("jsonrpc", Json.jstr "2.0"), ("method", Json.jstr "b")]]) =
      ⟨200, some (Json.jarr [])⟩ :=
  ⟨c2_notification_replies.1 [] []
      (Json.jobj [("jsonrpc", Json.jstr "2.0"), ("method", Json.jstr "log")])
      ⟨"log", Json.jnull, Json.jnull, false⟩ rfl rfl rfl,
   c2_notification_replies.2 [] [0, 1] _
      [⟨"a", Json.jnull, Json.jnull, false⟩, ⟨"b", Json.jnull, Json.jnull, false⟩]
      rfl (by
        intro r hr
        simp at hr
        rcases hr with rfl | rfl <;> rfl)⟩

/-- Every error `Request::from_json` throws is an `InvalidRequest` with no
attached data. -/
theorem from_json_error_shape {jv : Json} {e : Error}
    (h : Request.from_json jv = .error e) :
    e.code = invalidRequestCode ∧ e.data = Json.jnull := by
  simp only [Request.from_json] at h
  repeat
    first
    | ((cases h) <;> exact ⟨rfl, rfl⟩)
    | split at h

/-- If any element of a batch fails envelope validation, the element-wise
parse fails with the first such `InvalidRequest` error. -/
theorem mapM_from_json_error :
    ∀ elems : List Json, (∃ j ∈ elems, ∃ e, Request.from_json j = .error e) →
      ∃ e, elems.mapM Request.from_json = .error e ∧
        e.code = invalidRequestCode ∧ e.data = Json.jnull
  | [] => by rintro ⟨j, hj, _⟩; cases hj
  | a :: l => by
    rintro ⟨j, hj, e, he⟩
    cases ha : Request.from_json a with
    | error e' =>
      refine ⟨e', ?_, (from_json_error_shape ha).1, (from_json_error_shape ha).2⟩
      rw [List.mapM_cons, ha]
      rfl
    | ok r =>
      have hj' : j ∈ l := by
        rcases List.mem_cons.mp hj with h1 | h1
        · subst h1; rw [ha] at he; cases he
        · exact h1
      obtain ⟨e'', h1, h2, h3⟩ := mapM_from_json_error l ⟨j, hj', e, he⟩
      refine ⟨e'', ?_, h2, h3⟩
      rw [List.mapM_cons, ha]
      show (l.mapM Request.from_json >>= fun xs => pure (r :: xs)) =
        Except.error e''
      rw [h1]
      rfl

/-- C10: if any element of a batch fails envelope validation,
`parse_request` rejects the whole batch with a single `InvalidRequest`
error; the server session replies HTTP 200 with one error response whose
id is JSON null; and the reply is independent of the registry and of the
worker-pool schedule, so no procedure of the batch — valid elements
included — is executed. -/
theorem c10_batch_atomic_reject (reg : MethodRegistry) (order : List Nat)
    (elems : List Json) (j : Json) (e : Error) (hj : j ∈ elems)
    (he : Request.from_json j = .error e) :
    ∃ e', Protocol.parse_request_value (Json.jarr elems) = .error e' ∧
      e'.code = invalidRequestCode ∧
      process_request_core reg order (Json.jarr elems) =
        ⟨200, some ((Response.mkError e' Json.jnull).to_json)⟩ ∧
      ∀ (reg' : MethodRegistry) (order' : List Nat),
        process_request_core reg' order' (Json.jarr elems) =
          process_request_core reg order (Json.jarr elems) := by
  have hne : elems.isEmpty = false := by
    cases elems
    · cases hj
    · rfl
  obtain ⟨e', h1, h2, _⟩ := mapM_from_json_error elems ⟨j, hj, e, he⟩
  have hparse : Protocol.parse_request_value (Json.jarr elems) = .error e' := by
    simp only [Protocol.parse_request_value]
    rw [if_neg (by simp [hne])]
    exact h1
  refine ⟨e', hparse, h2, ?_, ?_⟩
  · simp [process_request_core, hparse]
  · intro reg' order'
    simp [process_request_core, hparse]

/-- Witness for C10: a two-element batch with one valid request and one
invalid element (`{}`) is rejected whole. -/
theorem c10_batch_atomic_reject_witness :
    ∃ e', Protocol.parse_request_value (Json.jarr [
        Json.jobj [("jsonrpc", Json.jstr "2.0"), ("method", Json.jstr "a"),
          ("id", Json.jint 1)],
        Json.jobj []]) = .error e' ∧
      e'.code = invalidRequestCode ∧
      process_request_core [] [0, 1] (Json.jarr [
        Json.jobj [("jsonrpc", Json.jstr "2.0"), ("method", Json.jstr "a"),
          ("id", Json.jint 1)],
        Json.jobj []]) =
        ⟨200, some ((Response.mkError e' Json.jnull).to_json)⟩ ∧
      ∀ (reg' : MethodRegistry) (order' : List Nat),
        process_request_core reg' order' (Json.jarr [
          Json.jobj [("jsonrpc", Json.jstr "2.0"), ("method", Json.jstr "a"),
            ("id", Json.jint 1)],
          Json.jobj []]) =
          process_request_core [] [0, 1] (Json.jarr [
            Json.jobj [("jsonrpc", Json.jstr "2.0"), ("method", Json.jstr "a"),
              ("id", Json.jint 1)],
            Json.jobj []]) :=
  c10_batch_atomic_reject [] [0, 1] _ (Json.jobj [])
    ⟨invalidRequestCode, "缺少或无效的 jsonrpc 版本字段", Json.jnull⟩
    (by simp) rfl

end Jsonrpc
